import Mathlib

/-!
Shallow embedding of the EEG ingestion-and-query data service
(`src/pipeline/api.py`, `src/pipeline/models.py`, `src/pipeline/schemas.py`).

Python floats (`timestamp_sec`, `value_uv`, query bounds) are modelled as
rationals `ℚ`; all arithmetic the service performs on them
(`chunk_index + sample_idx / sfreq`, comparisons) is exact on the inputs the
claims quantify over. Python `int` is modelled as `Int`. The database session
is modelled as an explicit state `DB` holding the two tables as lists of rows;
an unhandled Python exception (IndexError, ZeroDivisionError, a failed
`db.commit()`) is modelled as `Except.error`, and since the only `commit` is
the final one, an error leaves the state unchanged (the transaction is never
committed).
-/

namespace EegPipeline

/-- A row of the `eeg_samples` table (`EegSample` in `models.py`); the
auto-increment `id` and the `ingested_at` timestamp are irrelevant to every
claim and omitted. -/
structure EegSample where
  patient_id : String
  recording_id : String
  channel : String
  timestamp_sec : ℚ
  value_uv : ℚ
  deriving Repr, DecidableEq

/-- A row of the `ingestion_log` table (`IngestionLog` in `models.py`);
`id` and `ingested_at` omitted as above. -/
structure IngestionLog where
  patient_id : String
  recording_id : String
  chunk_start_sec : ℚ
  chunk_end_sec : ℚ
  num_samples : Int
  checksum : String
  deriving Repr, DecidableEq

/-- The request body of `POST /api/ingest/` (`IngestRequest` in `schemas.py`). -/
structure IngestRequest where
  recording_id : String
  chunk_index : Int
  channels : List String
  data : List (List ℚ)
  timestamp : ℚ
  deriving Repr, DecidableEq

/-- The response body (`IngestResponse` in `schemas.py`). -/
structure IngestResponse where
  status : String
  message : String
  deriving Repr, DecidableEq

/-- The database state: the two tables, each a list of rows in insertion
order. -/
structure DB where
  samples : List EegSample
  logs : List IngestionLog
  deriving Repr, DecidableEq

def DB.empty : DB := ⟨[], []⟩

/-- An unhandled failure escaping a request handler (surfaced by FastAPI as an
HTTP 500, not as a validation failure). `commitFailed` models a
`db.commit()` that raises (StorageError); the transaction is rolled back. -/
inductive PyErr where
  | indexError
  | zeroDivisionError
  | commitFailed
  deriving Repr, DecidableEq

/-- Python's `recording_id.split("_")[0]`: the prefix before the first
underscore (`str.split` never returns an empty list, so no IndexError). -/
def splitHead (s : String) : String := (s.splitOn "_").headD ""

/-- Model of `json.dumps(request.data)`: a canonical, injective serialization
of the payload. -/
def jsonDumps (data : List (List ℚ)) : String :=
  toString (data.map (fun row => row.map (fun q => (q.num, q.den))))

/-- Model of the external library call
`hashlib.sha256(json.dumps(request.data).encode()).hexdigest()` in
`ingest_eeg_data`: a deterministic digest of the canonical serialization of
`data`. No claim depends on any property of SHA-256 beyond being a
deterministic function of that serialization, so the digest is modelled as the
serialization itself. -/
def sha256_json (data : List (List ℚ)) : String := jsonDumps data

/-- One iteration of the inner loop of `ingest_eeg_data`:
`for sample_idx, value in enumerate(request.data[ch_idx])` appending
`EegSample(..., timestamp_sec=request.chunk_index + sample_idx / sfreq, ...)`.
If the row is non-empty and `sfreq == 0`, the first division raises
`ZeroDivisionError`; an empty row runs zero iterations and cannot raise. -/
def expandRow (rid ch : String) (chunk_index : Int) (sfreq : Nat)
    (row : List ℚ) : Except PyErr (List EegSample) :=
  match row with
  | [] => .ok []
  | _ :: _ =>
    if sfreq = 0 then .error .zeroDivisionError
    else .ok (row.enum.map (fun q =>
      ⟨splitHead rid, rid, ch, (chunk_index : ℚ) + (q.1 : ℚ) / (sfreq : ℚ), q.2⟩))

/-- The outer loop `for ch_idx, channel in enumerate(request.channels)` of
`ingest_eeg_data`, started at channel index `k`: `request.data[ch_idx]`
raises IndexError when `ch_idx` is out of range of `data`. -/
def expandFrom (rid : String) (chunk_index : Int) (data : List (List ℚ))
    (sfreq : Nat) : Nat → List String → Except PyErr (List EegSample)
  | _, [] => .ok []
  | k, ch :: rest =>
    match data.get? k with
    | none => .error .indexError
    | some row =>
      match expandRow rid ch chunk_index sfreq row with
      | .error e => .error e
      | .ok here =>
        match expandFrom rid chunk_index data sfreq (k + 1) rest with
        | .error e => .error e
        | .ok tail => .ok (here ++ tail)

/-- `ingest_eeg_data` (`api.py`): dedup lookup, chunk expansion, audit-log
construction, and the single `db.add_all(samples + [log_entry]); db.commit()`.
`commitOk` is the oracle for whether that final commit succeeds; on any raise
(IndexError / ZeroDivisionError / commit failure) the transaction is never
committed, so the returned state is the input state. -/
def ingest_eeg_data (req : IngestRequest) (commitOk : Bool) (db : DB) :
    Except PyErr IngestResponse × DB :=
  if (db.logs.find? (fun l =>
      l.recording_id = req.recording_id ∧
        l.chunk_start_sec = (req.chunk_index : ℚ))).isSome then
    (.ok ⟨"duplicate", "Chunk already ingested"⟩, db)
  else
    match req.data.head? with
    | none => (.error .indexError, db)
    | some row0 =>
      -- `sfreq = len(request.data[0])` is `row0.length` below
      match expandFrom req.recording_id req.chunk_index req.data row0.length 0
          req.channels with
      | .error e => (.error e, db)
      | .ok samples =>
        if row0.length = 0 then
          -- `chunk_end_sec = request.chunk_index + len(request.data[0]) / sfreq`
          -- raises ZeroDivisionError
          (.error .zeroDivisionError, db)
        else if commitOk then
          (.ok ⟨"success", "Chunk ingested successfully"⟩,
            ⟨db.samples ++ samples,
              db.logs ++ [⟨splitHead req.recording_id, req.recording_id,
                (req.chunk_index : ℚ),
                (req.chunk_index : ℚ) + (row0.length : ℚ) / (row0.length : ℚ),
                (row0.length : Int) * (req.channels.length : Int),
                sha256_json req.data⟩]⟩)
        else
          (.error .commitFailed, db)

/-- An `HTTPException` raised by a query endpoint. -/
structure HTTPError where
  status_code : Nat
  detail : String
  deriving Repr, DecidableEq

/-- Response body of `GET /api/eeg/{patient_id}/recordings`. -/
structure RecordingsResponse where
  patient_id : String
  total_samples : Nat
  channels : List String
  deriving Repr, DecidableEq

/-- Response body of `GET /api/eeg/{patient_id}/recordings/{recording_id}/summary`. -/
structure SummaryResponse where
  patient_id : String
  recording_id : String
  total_samples : Nat
  channels : List String
  deriving Repr, DecidableEq

/-- One element of the `samples` array returned by the data endpoint. -/
structure SampleOut where
  channel : String
  timestamp_sec : ℚ
  value_uv : ℚ
  deriving Repr, DecidableEq

/-- Response body of `GET /api/eeg/{patient_id}/recordings/{recording_id}/data`. -/
structure DataResponse where
  patient_id : String
  recording_id : String
  start_sec : ℚ
  end_sec : ℚ
  samples : List SampleOut
  deriving Repr, DecidableEq

/-- Model of SQL `DISTINCT` over a projected column: the distinct values, in
some order (the order is unspecified in the spec and irrelevant to the
claims). -/
def distinctVals (l : List String) : List String := l.dedup

/-- `get_patient_recordings` (`api.py`): count the patient's samples, 404 when
zero, else return the count and the distinct channels. -/
def get_patient_recordings (patient_id : String) (db : DB) :
    Except HTTPError RecordingsResponse :=
  if (db.samples.filter (fun s => s.patient_id = patient_id)).length = 0 then
    .error ⟨404, "Patient not found"⟩
  else
    .ok ⟨patient_id,
      (db.samples.filter (fun s => s.patient_id = patient_id)).length,
      distinctVals ((db.samples.filter
        (fun s => s.patient_id = patient_id)).map (fun s => s.channel))⟩

/-- `get_recording_summary` (`api.py`): same, scoped to one recording. -/
def get_recording_summary (patient_id recording_id : String) (db : DB) :
    Except HTTPError SummaryResponse :=
  if (db.samples.filter (fun s =>
      s.patient_id = patient_id ∧ s.recording_id = recording_id)).length = 0
  then
    .error ⟨404, "Recording not found"⟩
  else
    .ok ⟨patient_id, recording_id,
      (db.samples.filter (fun s =>
        s.patient_id = patient_id ∧ s.recording_id = recording_id)).length,
      distinctVals ((db.samples.filter (fun s =>
        s.patient_id = patient_id ∧ s.recording_id = recording_id)).map
          (fun s => s.channel))⟩

/-- The row filter of `get_recording_data`: same patient and recording, and
`timestamp_sec` in the half-open interval `[start_sec, end_sec)`. -/
def inRange (patient_id recording_id : String) (start_sec end_sec : ℚ)
    (s : EegSample) : Prop :=
  s.patient_id = patient_id ∧ s.recording_id = recording_id ∧
    start_sec ≤ s.timestamp_sec ∧ s.timestamp_sec < end_sec

instance (pid rid : String) (a b : ℚ) (s : EegSample) :
    Decidable (inRange pid rid a b s) := by
  unfold inRange; infer_instance

/-- `get_recording_data` (`api.py`): filter by patient, recording and
half-open time range, `ORDER BY timestamp_sec` (modelled as a stable sort —
the relative order of equal timestamps is unspecified in the spec), and
project each row to `{channel, timestamp_sec, value_uv}`. Always succeeds;
an empty match yields an empty `samples` array. -/
def get_recording_data (patient_id recording_id : String)
    (start_sec end_sec : ℚ) (db : DB) : DataResponse :=
  ⟨patient_id, recording_id, start_sec, end_sec,
    ((db.samples.filter
      (fun s => inRange patient_id recording_id start_sec end_sec s)).mergeSort
        (fun x y => x.timestamp_sec ≤ y.timestamp_sec)).map
      (fun s => ⟨s.channel, s.timestamp_sec, s.value_uv⟩)⟩

/-- One externally invokable operation of the service (the health check
touches no state and is omitted). -/
inductive Op where
  | submit (req : IngestRequest) (commitOk : Bool)
  | recordings (patient_id : String)
  | summary (patient_id recording_id : String)
  | dataQuery (patient_id recording_id : String) (start_sec end_sec : ℚ)

/-- Effect of one sequentially executed operation on the database state:
only `submit_chunk` writes; every query reads. -/
def Op.step (db : DB) : Op → DB
  | .submit req commitOk => (ingest_eeg_data req commitOk db).2
  | .recordings _ => db
  | .summary _ _ => db
  | .dataQuery _ _ _ _ => db

/-- The state after running a sequence of operations from the empty store. -/
def runOps (ops : List Op) : DB := ops.foldl Op.step DB.empty

/-! ### Helper lemmas about the chunk expansion -/

/-- The sample list one channel's inner-loop pass produces, in closed form. -/
def rowSamples (rid ch : String) (chunk_index : Int) (sfreq : Nat)
    (row : List ℚ) : List EegSample :=
  row.enum.map (fun q =>
    ⟨splitHead rid, rid, ch, (chunk_index : ℚ) + (q.1 : ℚ) / (sfreq : ℚ), q.2⟩)

lemma expandRow_eq_ok (rid ch : String) (ci : Int) (sfreq : Nat)
    (row : List ℚ) (h : sfreq ≠ 0) :
    expandRow rid ch ci sfreq row = .ok (rowSamples rid ch ci sfreq row) := by
  cases row with
  | nil => rfl
  | cons a t => simp [expandRow, rowSamples, h]

lemma rowSamples_length (rid ch : String) (ci : Int) (sfreq : Nat)
    (row : List ℚ) : (rowSamples rid ch ci sfreq row).length = row.length := by
  simp [rowSamples]

lemma rowSamples_get? (rid ch : String) (ci : Int) (sfreq : Nat)
    (row : List ℚ) (j : Nat) :
    (rowSamples rid ch ci sfreq row).get? j = (row.get? j).map
      (fun v => ⟨splitHead rid, rid, ch,
        (ci : ℚ) + (j : ℚ) / (sfreq : ℚ), v⟩) := by
  simp only [rowSamples, List.get?_map, List.get?_enum]
  cases row.get? j <;> rfl

lemma expandFrom_eq_ok (rid : String) (ci : Int) (data : List (List ℚ))
    (S : Nat) (hS : S ≠ 0) :
    ∀ (chs : List String) (ds : List (List ℚ)) (k : Nat),
      data.drop k = ds → chs.length = ds.length →
      (∀ r ∈ ds, r.length = S) →
      expandFrom rid ci data S k chs =
        .ok ((chs.zip ds).flatMap (fun p => rowSamples rid p.1 ci S p.2)) := by
  intro chs
  induction chs with
  | nil =>
    intro ds k _ hlen _
    cases ds with
    | nil => simp [expandFrom]
    | cons r t => simp at hlen
  | cons ch rest ih =>
    intro ds k hdrop hlen hrows
    cases ds with
    | nil => simp at hlen
    | cons r ds2 =>
      have hget : data.get? k = some r := by
        have h0 := List.get?_drop data k 0
        rw [hdrop] at h0
        simpa using h0.symm
      have hdrop2 : data.drop (k + 1) = ds2 := by
        have h1 : data.drop (k + 1) = (data.drop k).drop 1 := by
          rw [List.drop_drop, Nat.add_comm]
        rw [h1, hdrop, List.drop_one, List.tail_cons]
      have hlen2 : rest.length = ds2.length := by simpa using hlen
      have hrows2 : ∀ x ∈ ds2, x.length = S := fun x hx => hrows x (by simp [hx])
      simp only [expandFrom, hget, expandRow_eq_ok rid ch ci S r hS,
        ih ds2 (k + 1) hdrop2 hlen2 hrows2, List.zip_cons_cons,
        List.flatMap_cons]

/-! ### Helper lemmas about `flatMap` with constant-length blocks -/

lemma get?_eq_some_getD {α : Type} (l : List α) (n : Nat) (d : α)
    (h : n < l.length) : l.get? n = some (l.getD n d) := by
  simp [List.getD_eq_getElem?_getD, List.getElem?_eq_getElem h]

lemma flatMap_const_length {α β : Type} (l : List α) (f : α → List β) (S : Nat)
    (h : ∀ a ∈ l, (f a).length = S) : (l.flatMap f).length = l.length * S := by
  induction l with
  | nil => simp
  | cons a t ih =>
    simp only [List.flatMap_cons, List.length_append, List.length_cons]
    rw [h a (by simp), ih (fun x hx => h x (by simp [hx])), Nat.succ_mul,
      Nat.add_comm]

lemma flatMap_const_get? {α β : Type} (l : List α) (f : α → List β) (S : Nat)
    (h : ∀ a ∈ l, (f a).length = S) (i j : Nat) (hj : j < S) :
    (l.flatMap f).get? (i * S + j) =
      (l.get? i).bind (fun a => (f a).get? j) := by
  induction l generalizing i with
  | nil => simp
  | cons a t ih =>
    have hta : ∀ x ∈ t, (f x).length = S := fun x hx => h x (by simp [hx])
    cases i with
    | zero =>
      simp only [List.flatMap_cons, Nat.zero_mul, Nat.zero_add]
      rw [List.get?_append (by rw [h a (by simp)]; exact hj)]
      simp
    | succ i =>
      simp only [List.flatMap_cons]
      rw [List.get?_append_right (by rw [h a (by simp), Nat.succ_mul]; omega)]
      have harith : (i + 1) * S + j - (f a).length = i * S + j := by
        rw [h a (by simp), Nat.succ_mul]; omega
      rw [harith, ih hta i]
      simp

/-! ### Outcome analysis of `ingest_eeg_data` -/

lemma ingest_eeg_data_valid (req : IngestRequest) (db : DB) (S : Nat)
    (hC : req.channels.length = req.data.length)
    (hne : req.data ≠ [])
    (hrect : ∀ r ∈ req.data, r.length = S)
    (hS : S ≠ 0)
    (hnodup : ∀ l ∈ db.logs,
      ¬(l.recording_id = req.recording_id ∧
        l.chunk_start_sec = (req.chunk_index : ℚ))) :
    ingest_eeg_data req true db =
      (.ok ⟨"success", "Chunk ingested successfully"⟩,
        ⟨db.samples ++ (req.channels.zip req.data).flatMap
            (fun p => rowSamples req.recording_id p.1 req.chunk_index S p.2),
          db.logs ++ [⟨splitHead req.recording_id, req.recording_id,
            (req.chunk_index : ℚ), (req.chunk_index : ℚ) + 1,
            (S : Int) * (req.channels.length : Int),
            sha256_json req.data⟩]⟩) := by
  have hfind : db.logs.find? (fun l =>
      l.recording_id = req.recording_id ∧
        l.chunk_start_sec = (req.chunk_index : ℚ)) = none := by
    rw [List.find?_eq_none]
    intro x hx
    simpa using hnodup x hx
  have hexp := expandFrom_eq_ok req.recording_id req.chunk_index req.data S hS
    req.channels req.data 0 (List.drop_zero req.data) hC hrect
  have hdiv : ((S : ℚ)) / ((S : ℚ)) = 1 := by
    rw [div_self]
    exact_mod_cast hS
  cases hdata : req.data with
  | nil => exact absurd hdata hne
  | cons row0 rest =>
    have hrow0 : row0.length = S := hrect row0 (by simp [hdata])
    rw [hdata] at hexp
    rw [ingest_eeg_data, hfind]
    simp only [Option.isSome_none, Bool.false_eq_true, if_false, hdata,
      List.head?_cons, hrow0, hexp, if_neg hS, if_true, hdiv]

lemma ingest_eeg_data_cases (req : IngestRequest) (commitOk : Bool) (db : DB) :
    ((ingest_eeg_data req commitOk db).2 = db ∧
      ((ingest_eeg_data req commitOk db).1 =
          .ok ⟨"duplicate", "Chunk already ingested"⟩ ∨
        ∃ e, (ingest_eeg_data req commitOk db).1 = .error e)) ∨
    (∃ new entry,
      (ingest_eeg_data req commitOk db).1 =
        .ok ⟨"success", "Chunk ingested successfully"⟩ ∧
      (ingest_eeg_data req commitOk db).2 =
        ⟨db.samples ++ new, db.logs ++ [entry]⟩ ∧
      entry.recording_id = req.recording_id ∧
      entry.chunk_start_sec = (req.chunk_index : ℚ) ∧
      ∀ l ∈ db.logs, ¬(l.recording_id = req.recording_id ∧
        l.chunk_start_sec = (req.chunk_index : ℚ))) := by
  rw [ingest_eeg_data]
  split
  · exact .inl ⟨rfl, .inl rfl⟩
  · rename_i hfind
    have hnone : db.logs.find? (fun l =>
        l.recording_id = req.recording_id ∧
          l.chunk_start_sec = (req.chunk_index : ℚ)) = none := by
      rcases h : db.logs.find? (fun l =>
        l.recording_id = req.recording_id ∧
          l.chunk_start_sec = (req.chunk_index : ℚ)) with _ | v
      · exact h
      · exact absurd (by rw [h]; rfl) hfind
    have hall : ∀ l ∈ db.logs, ¬(l.recording_id = req.recording_id ∧
        l.chunk_start_sec = (req.chunk_index : ℚ)) := by
      intro l hl
      have := List.find?_eq_none.mp hnone l hl
      simpa using this
    split
    · exact .inl ⟨rfl, .inr ⟨_, rfl⟩⟩
    · split
      · exact .inl ⟨rfl, .inr ⟨_, rfl⟩⟩
      · split
        · exact .inl ⟨rfl, .inr ⟨_, rfl⟩⟩
        · split
          · exact .inr ⟨_, _, rfl, rfl, rfl, rfl, hall⟩
          · exact .inl ⟨rfl, .inr ⟨_, rfl⟩⟩

/-- A prior log entry with the dedup key of `req` makes `ingest_eeg_data`
return the duplicate response and leave the state untouched. -/
lemma ingest_duplicate_of_mem (req : IngestRequest) (commitOk : Bool) (db : DB)
    (h : ∃ l ∈ db.logs, l.recording_id = req.recording_id ∧
      l.chunk_start_sec = (req.chunk_index : ℚ)) :
    ingest_eeg_data req commitOk db =
      (.ok ⟨"duplicate", "Chunk already ingested"⟩, db) := by
  rw [ingest_eeg_data, if_pos]
  rw [List.find?_isSome]
  obtain ⟨l, hl, hp⟩ := h
  exact ⟨l, hl, by simpa using hp⟩

/-- The dedup-key uniqueness invariant of the ingestion log: no two entries
share `(recording_id, chunk_start_sec)`. -/
def LogKeyUnique (db : DB) : Prop :=
  db.logs.Pairwise (fun a b =>
    ¬(a.recording_id = b.recording_id ∧ a.chunk_start_sec = b.chunk_start_sec))

lemma step_preserves_LogKeyUnique (db : DB) (op : Op)
    (h : LogKeyUnique db) : LogKeyUnique (Op.step db op) := by
  cases op with
  | submit req cOk =>
    rcases ingest_eeg_data_cases req cOk db with
      ⟨h2, _⟩ | ⟨new, entry, _, h2, hrid, hcs, hall⟩
    · rw [Op.step, h2]; exact h
    · rw [Op.step, h2]
      unfold LogKeyUnique at h ⊢
      rw [List.pairwise_append]
      refine ⟨h, List.pairwise_singleton _ _, ?_⟩
      intro a ha b hb
      simp only [List.mem_singleton] at hb
      subst hb
      rw [hrid, hcs]
      exact hall a ha
  | recordings pid => exact h
  | summary pid rid => exact h
  | dataQuery pid rid a b => exact h

/-! ### Concrete inputs used by the witness theorems -/

/-- The spec's concrete scenario: 2 channels × 3 samples of `chb01_03.edf`. -/
def reqA : IngestRequest :=
  ⟨"chb01_03.edf", 0, ["FP1-F7", "F7-T7"], [[1, 2, 3], [4, 5, 6]], 1708300000⟩

/-- A store already holding a log entry for `("p_r", chunk 0)`. -/
def dbDup : DB := ⟨[], [⟨"p", "p_r", 0, 1, 2, "h"⟩]⟩

/-- A resubmission of chunk 0 of recording `p_r` with a different payload. -/
def reqDup : IngestRequest := ⟨"p_r", 0, ["a"], [[7]], 0⟩

/-- A store holding samples of patient `q` only. -/
def dbQ : DB := ⟨[⟨"q", "q_r", "c0", 0, 1⟩], []⟩

/-! ### Claim theorems -/

/-- C2: if the ingestion log already holds an entry for
`(recording_id, chunk_index)`, `submit_chunk` for that key returns the
"duplicate" response and leaves samples and log unchanged, whatever the
payload; and after a successful submission, any resubmission under the same
key is a duplicate that changes nothing, so the identical chunk submitted
twice yields exactly one set of stored samples and one log entry. -/
theorem C2_duplicate_idempotent :
    (∀ (req : IngestRequest) (commitOk : Bool) (db : DB),
      (∃ l ∈ db.logs, l.recording_id = req.recording_id ∧
        l.chunk_start_sec = (req.chunk_index : ℚ)) →
      ingest_eeg_data req commitOk db =
        (.ok ⟨"duplicate", "Chunk already ingested"⟩, db)) ∧
    (∀ (req : IngestRequest) (db db2 : DB),
      ingest_eeg_data req true db =
        (.ok ⟨"success", "Chunk ingested successfully"⟩, db2) →
      ∀ (req2 : IngestRequest) (commitOk : Bool),
        req2.recording_id = req.recording_id →
        req2.chunk_index = req.chunk_index →
        ingest_eeg_data req2 commitOk db2 =
          (.ok ⟨"duplicate", "Chunk already ingested"⟩, db2)) := by
  refine ⟨fun req commitOk db h => ingest_duplicate_of_mem req commitOk db h,
    fun req db db2 hsub req2 commitOk hrid hci => ?_⟩
  rcases ingest_eeg_data_cases req true db with
    ⟨_, hres | ⟨e, hres⟩⟩ | ⟨new, entry, _, h2, herid, hecs, _⟩
  · rw [hsub] at hres
    injection hres with h
    exact absurd (congrArg IngestResponse.status h) (by decide)
  · rw [hsub] at hres
    exact Except.noConfusion hres
  · apply ingest_duplicate_of_mem
    rw [hsub] at h2
    have hdb2 : db2 = ⟨db.samples ++ new, db.logs ++ [entry]⟩ := h2
    rw [hdb2, hrid, hci]
    exact ⟨entry, by simp, herid, hecs⟩

/-- C2 witness: a concrete resubmission of an already-logged chunk with a
different payload returns "duplicate" and leaves the store unchanged. -/
theorem C2_duplicate_idempotent_witness :
    ingest_eeg_data reqDup true dbDup =
      (.ok ⟨"duplicate", "Chunk already ingested"⟩, dbDup) :=
  C2_duplicate_idempotent.1 reqDup true dbDup (by decide)

/-- C7: every ingestion is atomic over the model state: either the result is
a non-success (duplicate or error) and both tables are exactly as before, or
the result is success and the produced samples and the single new log entry
appear together. -/
theorem C7_atomic_ingestion (req : IngestRequest) (commitOk : Bool) (db : DB) :
    ((ingest_eeg_data req commitOk db).2 = db ∧
      (ingest_eeg_data req commitOk db).1 ≠
        .ok ⟨"success", "Chunk ingested successfully"⟩) ∨
    (∃ new entry,
      (ingest_eeg_data req commitOk db).1 =
        .ok ⟨"success", "Chunk ingested successfully"⟩ ∧
      (ingest_eeg_data req commitOk db).2.samples = db.samples ++ new ∧
      (ingest_eeg_data req commitOk db).2.logs = db.logs ++ [entry]) := by
  rcases ingest_eeg_data_cases req commitOk db with
    ⟨h2, hres | ⟨e, hres⟩⟩ | ⟨new, entry, h1, h2, _, _, _⟩
  · exact .inl ⟨h2, by rw [hres]; simp⟩
  · exact .inl ⟨h2, by rw [hres]; simp⟩
  · exact .inr ⟨new, entry, h1, by rw [h2], by rw [h2]⟩

/-- C9: in every state reachable from the empty store by a sequence of
sequentially executed operations, the ingestion log holds at most one entry
per `(recording_id, chunk_start_sec)` key, and every single operation
preserves that invariant. -/
theorem C9_dedup_key_invariant :
    (∀ ops : List Op, LogKeyUnique (runOps ops)) ∧
    (∀ (db : DB) (op : Op), LogKeyUnique db → LogKeyUnique (Op.step db op)) := by
  constructor
  · intro ops
    have hrun : ∀ (l : List Op) (db : DB), LogKeyUnique db →
        LogKeyUnique (l.foldl Op.step db) := by
      intro l
      induction l with
      | nil => exact fun db h => h
      | cons op t ih =>
        exact fun db h => ih _ (step_preserves_LogKeyUnique db op h)
    exact hrun ops DB.empty List.Pairwise.nil
  · exact step_preserves_LogKeyUnique

/-- C9 witness: the invariant holds after a concrete run that ingests the
same chunk twice around a query. -/
theorem C9_dedup_key_invariant_witness :
    LogKeyUnique (runOps [.submit reqA true, .recordings "chb01",
      .submit reqA true]) :=
  C9_dedup_key_invariant.1 [.submit reqA true, .recordings "chb01",
    .submit reqA true]

/-- C1: a valid, non-duplicate chunk submission (C channels, rectangular
C × S data, S > 0, no prior log entry for the dedup key) succeeds and appends
exactly C * S sample rows; the row for channel i, position j carries
`channel = channels[i]`, `value_uv = data[i][j]` and
`timestamp_sec = chunk_index + j / S`, and every appended timestamp lies in
`[chunk_index, chunk_index + 1)`. -/
theorem C1_chunk_expansion (req : IngestRequest) (db : DB) (S : Nat)
    (hC : req.channels.length = req.data.length)
    (hne : req.data ≠ [])
    (hrect : ∀ r ∈ req.data, r.length = S)
    (hS : 0 < S)
    (hnodup : ∀ l ∈ db.logs, ¬(l.recording_id = req.recording_id ∧
      l.chunk_start_sec = (req.chunk_index : ℚ))) :
    ∃ new : List EegSample,
      (ingest_eeg_data req true db).1 =
        .ok ⟨"success", "Chunk ingested successfully"⟩ ∧
      (ingest_eeg_data req true db).2.samples = db.samples ++ new ∧
      new.length = req.channels.length * S ∧
      (∀ i j, i < req.channels.length → j < S →
        new.get? (i * S + j) = some ⟨splitHead req.recording_id,
          req.recording_id, req.channels.getD i "",
          (req.chunk_index : ℚ) + (j : ℚ) / (S : ℚ),
          (req.data.getD i []).getD j 0⟩) ∧
      (∀ s ∈ new, (req.chunk_index : ℚ) ≤ s.timestamp_sec ∧
        s.timestamp_sec < (req.chunk_index : ℚ) + 1) := by
  have hS0 : S ≠ 0 := Nat.pos_iff_ne_zero.mp hS
  have hvalid := ingest_eeg_data_valid req db S hC hne hrect hS0 hnodup
  have hlen : ∀ p ∈ req.channels.zip req.data,
      (rowSamples req.recording_id p.1 req.chunk_index S p.2).length = S := by
    intro p hp
    cases p with
    | mk ch row =>
      rw [rowSamples_length]
      exact hrect row (List.of_mem_zip hp).2
  refine ⟨(req.channels.zip req.data).flatMap
    (fun p => rowSamples req.recording_id p.1 req.chunk_index S p.2),
    by rw [hvalid], by rw [hvalid], ?_, ?_, ?_⟩
  · rw [flatMap_const_length _ _ S hlen, List.length_zip, hC, Nat.min_self,
      ← hC]
  · intro i j hi hj
    have hiD : i < req.data.length := hC ▸ hi
    have hchan : req.channels.get? i = some (req.channels.getD i "") :=
      get?_eq_some_getD _ i "" hi
    have hdat : req.data.get? i = some (req.data.getD i []) :=
      get?_eq_some_getD _ i [] hiD
    have hzip : (req.channels.zip req.data).get? i =
        some (req.channels.getD i "", req.data.getD i []) :=
      (List.get?_zip_eq_some _ _ _ i).mpr ⟨hchan, hdat⟩
    have hrowi : (req.data.getD i []).length = S :=
      hrect _ (List.get?_mem hdat)
    have hjrow : j < (req.data.getD i []).length := hrowi ▸ hj
    have hval : (req.data.getD i []).get? j =
        some ((req.data.getD i []).getD j 0) :=
      get?_eq_some_getD _ j 0 hjrow
    rw [flatMap_const_get? _ _ S hlen i j hj, hzip]
    simp only [Option.some_bind, rowSamples_get?, hval]
    rfl
  · intro s hs
    rw [List.mem_flatMap] at hs
    obtain ⟨p, hp, hsp⟩ := hs
    cases p with
    | mk ch row =>
      have hrlen : row.length = S := hrect row (List.of_mem_zip hp).2
      simp only [rowSamples, List.mem_map] at hsp
      obtain ⟨q, hq, rfl⟩ := hsp
      cases q with
      | mk j v =>
        have hjlt : j < row.length := (List.mem_enum hq).1
        have hjS : j < S := hrlen ▸ hjlt
        constructor
        · have h0 : (0 : ℚ) ≤ (j : ℚ) / (S : ℚ) := by positivity
          simpa using h0
        · have h1 : (j : ℚ) / (S : ℚ) < 1 := by
            rw [div_lt_one (by exact_mod_cast hS)]
            exact_mod_cast hjS
          simpa using h1

/-- C1 witness: the spec's concrete chunk (2 channels × 3 samples) at the
empty store. -/
theorem C1_chunk_expansion_witness :
    ∃ new : List EegSample,
      (ingest_eeg_data reqA true DB.empty).1 =
        .ok ⟨"success", "Chunk ingested successfully"⟩ ∧
      (ingest_eeg_data reqA true DB.empty).2.samples =
        DB.empty.samples ++ new ∧
      new.length = reqA.channels.length * 3 ∧
      (∀ i j, i < reqA.channels.length → j < 3 →
        new.get? (i * 3 + j) = some ⟨splitHead reqA.recording_id,
          reqA.recording_id, reqA.channels.getD i "",
          (reqA.chunk_index : ℚ) + (j : ℚ) / ((3 : Nat) : ℚ),
          (reqA.data.getD i []).getD j 0⟩) ∧
      (∀ s ∈ new, (reqA.chunk_index : ℚ) ≤ s.timestamp_sec ∧
        s.timestamp_sec < (reqA.chunk_index : ℚ) + 1) :=
  C1_chunk_expansion reqA DB.empty 3 (by decide) (by decide) (by decide)
    (by decide) (by decide)

/-- C8: an accepted chunk writes exactly one new log entry, with
`chunk_start_sec = chunk_index`, `chunk_end_sec = chunk_index + 1`,
`num_samples = C * S`, `patient_id` the prefix of `recording_id` before the
first underscore, and `checksum` the digest of the canonical serialization of
`data`. -/
theorem C8_log_entry (req : IngestRequest) (db : DB) (S : Nat)
    (hC : req.channels.length = req.data.length)
    (hne : req.data ≠ [])
    (hrect : ∀ r ∈ req.data, r.length = S)
    (hS : 0 < S)
    (hnodup : ∀ l ∈ db.logs, ¬(l.recording_id = req.recording_id ∧
      l.chunk_start_sec = (req.chunk_index : ℚ))) :
    (ingest_eeg_data req true db).1 =
      .ok ⟨"success", "Chunk ingested successfully"⟩ ∧
    (ingest_eeg_data req true db).2.logs = db.logs ++
      [⟨splitHead req.recording_id, req.recording_id, (req.chunk_index : ℚ),
        (req.chunk_index : ℚ) + 1,
        (req.channels.length : Int) * (S : Int), sha256_json req.data⟩] := by
  have hvalid := ingest_eeg_data_valid req db S hC hne hrect
    (Nat.pos_iff_ne_zero.mp hS) hnodup
  rw [hvalid]
  exact ⟨rfl, by rw [Int.mul_comm]⟩

/-- C8 witness: the log entry written for the spec's concrete chunk. -/
theorem C8_log_entry_witness :
    (ingest_eeg_data reqA true DB.empty).1 =
      .ok ⟨"success", "Chunk ingested successfully"⟩ ∧
    (ingest_eeg_data reqA true DB.empty).2.logs = DB.empty.logs ++
      [⟨splitHead reqA.recording_id, reqA.recording_id,
        (reqA.chunk_index : ℚ), (reqA.chunk_index : ℚ) + 1,
        (reqA.channels.length : Int) * ((3 : Nat) : Int),
        sha256_json reqA.data⟩] :=
  C8_log_entry reqA DB.empty 3 (by decide) (by decide) (by decide)
    (by decide) (by decide)

/-- C5: the data query returns exactly the stored samples of that patient and
recording whose timestamp lies in the half-open interval
`[start_sec, end_sec)` (a multiset equality, stated as a permutation of the
filtered rows), ordered ascending by `timestamp_sec`; when nothing matches
the result is the empty sequence, not an error. -/
theorem C5_range_query (pid rid : String) (a b : ℚ) (db : DB) :
    List.Perm (get_recording_data pid rid a b db).samples
      ((db.samples.filter (fun s => inRange pid rid a b s)).map
        (fun s => (⟨s.channel, s.timestamp_sec, s.value_uv⟩ : SampleOut))) ∧
    (get_recording_data pid rid a b db).samples.Pairwise
      (fun x y => x.timestamp_sec ≤ y.timestamp_sec) ∧
    (db.samples.filter (fun s => inRange pid rid a b s) = [] →
      (get_recording_data pid rid a b db).samples = []) := by
  have hshow : (get_recording_data pid rid a b db).samples =
      ((db.samples.filter (fun s => inRange pid rid a b s)).mergeSort
        (fun x y => decide (x.timestamp_sec ≤ y.timestamp_sec))).map
          (fun s => (⟨s.channel, s.timestamp_sec, s.value_uv⟩ : SampleOut)) :=
    rfl
  refine ⟨?_, ?_, ?_⟩
  · rw [hshow]
    exact (List.mergeSort_perm
      (db.samples.filter (fun s => inRange pid rid a b s)) _).map _
  · rw [hshow, List.pairwise_map]
    have hs := @List.sorted_mergeSort EegSample
      (fun x y => decide (x.timestamp_sec ≤ y.timestamp_sec))
      (fun x y z hxy hyz => by
        simp only [decide_eq_true_eq] at *
        exact le_trans hxy hyz)
      (fun x y => by
        simp only [Bool.or_eq_true, decide_eq_true_eq]
        exact le_total x.timestamp_sec y.timestamp_sec)
      (db.samples.filter (fun s => inRange pid rid a b s))
    exact hs.imp (fun h => by simpa using h)
  · intro h
    rw [hshow, h, List.mergeSort_nil, List.map_nil]

/-- C5 witness: the third conjunct at a concrete empty store. -/
theorem C5_range_query_witness :
    (get_recording_data "chb01" "chb01_03.edf" 99 100 DB.empty).samples = [] :=
  (C5_range_query "chb01" "chb01_03.edf" 99 100 DB.empty).2.2 rfl

/-- C6: `list_recordings` 404s exactly when the patient has zero stored
samples and `recording_summary` 404s exactly when the recording has zero
matching samples; a successful response carries the matching sample count and
the distinct channel set of the matching samples, never an empty summary. -/
theorem C6_not_found_and_summaries (pid rid : String) (db : DB) :
    (get_patient_recordings pid db = .error ⟨404, "Patient not found"⟩ ↔
      (db.samples.filter (fun s => s.patient_id = pid)).length = 0) ∧
    (∀ resp, get_patient_recordings pid db = .ok resp →
      resp.total_samples =
        (db.samples.filter (fun s => s.patient_id = pid)).length ∧
      resp.channels.Nodup ∧
      ∀ c, c ∈ resp.channels ↔
        ∃ s ∈ db.samples.filter (fun s => s.patient_id = pid),
          s.channel = c) ∧
    (get_recording_summary pid rid db = .error ⟨404, "Recording not found"⟩ ↔
      (db.samples.filter (fun s =>
        s.patient_id = pid ∧ s.recording_id = rid)).length = 0) ∧
    (∀ resp, get_recording_summary pid rid db = .ok resp →
      resp.total_samples = (db.samples.filter (fun s =>
        s.patient_id = pid ∧ s.recording_id = rid)).length ∧
      resp.channels.Nodup ∧
      ∀ c, c ∈ resp.channels ↔
        ∃ s ∈ db.samples.filter (fun s =>
          s.patient_id = pid ∧ s.recording_id = rid), s.channel = c) := by
  refine ⟨?_, ?_, ?_, ?_⟩
  · rw [get_patient_recordings]
    split
    · rename_i h
      exact ⟨fun _ => h, fun _ => rfl⟩
    · rename_i h
      exact ⟨fun hx => Except.noConfusion hx, fun h0 => absurd h0 h⟩
  · rw [get_patient_recordings]
    split
    · exact fun resp hx => Except.noConfusion hx
    · intro resp hresp
      injection hresp with h
      subst h
      refine ⟨rfl, List.nodup_dedup _, fun c => ?_⟩
      show c ∈ distinctVals ((db.samples.filter
        (fun s => s.patient_id = pid)).map (fun s => s.channel)) ↔ _
      simp only [distinctVals, List.mem_dedup, List.mem_map]
  · rw [get_recording_summary]
    split
    · rename_i h
      exact ⟨fun _ => h, fun _ => rfl⟩
    · rename_i h
      exact ⟨fun hx => Except.noConfusion hx, fun h0 => absurd h0 h⟩
  · rw [get_recording_summary]
    split
    · exact fun resp hx => Except.noConfusion hx
    · intro resp hresp
      injection hresp with h
      subst h
      refine ⟨rfl, List.nodup_dedup _, fun c => ?_⟩
      show c ∈ distinctVals ((db.samples.filter (fun s =>
        s.patient_id = pid ∧ s.recording_id = rid)).map
          (fun s => s.channel)) ↔ _
      simp only [distinctVals, List.mem_dedup, List.mem_map]

/-- C6 witness: an unknown patient 404s on the empty store. -/
theorem C6_not_found_and_summaries_witness :
    get_patient_recordings "unknown" DB.empty =
      .error ⟨404, "Patient not found"⟩ :=
  (C6_not_found_and_summaries "unknown" "r" DB.empty).1.mpr rfl

/-- C10: with zero stored samples for the patient and recording, the data
query does not 404: it returns a successful response echoing the four request
parameters with an empty samples sequence. -/
theorem C10_data_query_empty_ok (pid rid : String) (a b : ℚ) (db : DB)
    (h : ∀ s ∈ db.samples, ¬(s.patient_id = pid ∧ s.recording_id = rid)) :
    get_recording_data pid rid a b db = ⟨pid, rid, a, b, []⟩ := by
  have hfil : db.samples.filter (fun s => inRange pid rid a b s) = [] := by
    rw [List.filter_eq_nil_iff]
    intro s hs
    simp only [inRange, decide_eq_true_eq]
    exact fun hcontra => h s hs ⟨hcontra.1, hcontra.2.1⟩
  rw [get_recording_data, hfil, List.mergeSort_nil, List.map_nil]

/-- C10 witness: querying a patient/recording absent from a store that holds
only another patient's sample. -/
theorem C10_data_query_empty_ok_witness :
    get_recording_data "chb01" "chb01_03.edf" 0 1 dbQ =
      ⟨"chb01", "chb01_03.edf", 0, 1, []⟩ :=
  C10_data_query_empty_ok "chb01" "chb01_03.edf" 0 1 dbQ (by decide)

/-- C3: refutation by evaluation: the code validates nothing. A
non-rectangular chunk (`channels=["a","b"]`, `data=[[1,2],[3]]`) is accepted
and persisted (3 sample rows and a log entry) instead of failing validation,
and an empty `data` raises an unhandled IndexError (an HTTP 500 server
error), not a validation failure. -/
theorem C3_no_validation_exists :
    (ingest_eeg_data ⟨"p_r", 0, ["a", "b"], [[1, 2], [3]], 0⟩ true
      DB.empty).1 = .ok ⟨"success", "Chunk ingested successfully"⟩ ∧
    (ingest_eeg_data ⟨"p_r", 0, ["a", "b"], [[1, 2], [3]], 0⟩ true
      DB.empty).2.samples.length = 3 ∧
    (ingest_eeg_data ⟨"p_r", 0, ["a", "b"], [[1, 2], [3]], 0⟩ true
      DB.empty).2.logs.length = 1 ∧
    (ingest_eeg_data ⟨"p_r", 0, [], [], 0⟩ true DB.empty).1 =
      .error .indexError := by
  exact ⟨rfl, rfl, rfl, rfl⟩

/-- C4: refutation by evaluation: a chunk whose first row is empty (`S = 0`)
makes the code perform the division by zero — an unhandled
ZeroDivisionError (HTTP 500), not a validation error — though nothing is
persisted. -/
theorem C4_zero_division_unhandled :
    ingest_eeg_data ⟨"p_r", 5, ["a"], [[]], 0⟩ true DB.empty =
      (.error .zeroDivisionError, DB.empty) := by
  exact rfl

end EegPipeline
